import Mathlib

/-
Verification of the playwright remote webdriver demo (server.py / client.py).

The Launcher (server.py, run_server) streams subprocess output line by line:
it echoes each line, and while no endpoint is captured it looks for the
Python regex `ws://\S+` in the line, recording the first match and printing a
one-time confirmation.  The Connector (client.py) picks an endpoint from the
command line (default `ws://localhost:9222/playwright`) and performs a fixed
linear sequence of browser actions.

Lines and strings are embedded as `List Char`; the regex search, the substring
test (Python `in`), the truthiness test (`not ws_endpoint`) and the loop are
translated directly from the source.
-/

namespace PlaywrightRemote

/-- Python whitespace class `\s` for str patterns, identical to
`str.isspace()`: tab through carriage return `\x09`-`\x0d`, space, the
ASCII separators `\x1c`-`\x1f`, next line `\x85`, no-break space `\xa0`,
ogham space mark `\u1680`, the typographic spaces `\u2000`-`\u200a`, line
and paragraph separators `\u2028`/`\u2029`, narrow no-break space
`\u202f`, medium mathematical space `\u205f`, ideographic space `\u3000`. -/
def pyIsSpace (c : Char) : Bool :=
  ('\x09' ≤ c && c ≤ '\x0d') || c = ' ' ||
  ('\x1c' ≤ c && c ≤ '\x1f') || c = '\x85' || c = '\xa0' ||
  c = '\u1680' || ('\u2000' ≤ c && c ≤ '\u200a') ||
  c = '\u2028' || c = '\u2029' || c = '\u202f' || c = '\u205f' || c = '\u3000'

/-- The literal pattern head searched for by run_server: `ws://`. -/
def wsPat : List Char := "ws://".data

/-- Python substring containment, `pat in s`. -/
def hasSubstr (pat : List Char) : List Char → Bool
  | [] => pat.isEmpty
  | c :: rest => (pat.isPrefixOf (c :: rest)) || hasSubstr pat rest

/-- Python `re.search(r'ws://\S+', line)`: leftmost position where the
literal `ws://` is followed by at least one non-whitespace character; the
match is `ws://` plus the maximal (greedy) run of non-whitespace after it.
Returns `none` when no position matches. -/
def wsSearch : List Char → Option (List Char)
  | [] => none
  | c :: rest =>
    if wsPat.isPrefixOf (c :: rest) then
      if (((c :: rest).drop 5).takeWhile (fun d => !pyIsSpace d)).isEmpty then
        wsSearch rest
      else some (wsPat ++ ((c :: rest).drop 5).takeWhile (fun d => !pyIsSpace d))
    else wsSearch rest

/-- Observable output of the Launcher loop body: the verbatim echo of a line,
or the one-time confirmation (which stands for the two `print` calls made at
capture, carrying the captured endpoint). -/
inductive OutEvent where
  | echo (line : List Char)
  | confirm (endpoint : List Char)
deriving DecidableEq

/-- Python truthiness of the `ws_endpoint` variable (`not ws_endpoint`):
`None` and the empty string are falsy. -/
def pyFalsy : Option (List Char) → Bool
  | none => true
  | some s => s.isEmpty

/-- One iteration of run_server's `for line in iter(...)` body: echo the line;
if `not ws_endpoint and "ws://" in line` then run the regex search and, on a
match, record it and emit the confirmation. -/
def processLine (st : Option (List Char)) (line : List Char) :
    Option (List Char) × List OutEvent :=
  if pyFalsy st && hasSubstr wsPat line then
    match wsSearch line with
    | some tok => (some tok, [OutEvent.echo line, OutEvent.confirm tok])
    | none => (st, [OutEvent.echo line])
  else (st, [OutEvent.echo line])

/-- The whole reading loop over a list of delivered lines, threading the
`ws_endpoint` state and collecting output events in order. -/
def runLines : Option (List Char) → List (List Char) → Option (List Char) × List OutEvent
  | st, [] => (st, [])
  | st, line :: rest =>
    ((runLines (processLine st line).1 rest).1,
     (processLine st line).2 ++ (runLines (processLine st line).1 rest).2)

/-- The first `ws://`-prefixed non-whitespace token across all lines in
order: first line with a regex match, leftmost match within it. -/
def firstWsToken (lines : List (List Char)) : Option (List Char) :=
  lines.findSome? wsSearch

/-- The output trace the spec describes: echo every line in order and place
the single confirmation right after the first line with a match. -/
def specCaptureTrace : List (List Char) → List OutEvent
  | [] => []
  | l :: ls =>
    match wsSearch l with
    | some tok => OutEvent.echo l :: OutEvent.confirm tok :: ls.map OutEvent.echo
    | none => OutEvent.echo l :: specCaptureTrace ls

/-- The lines carried by the echo events of a trace, in order. -/
def echoedLines (evs : List OutEvent) : List (List Char) :=
  evs.filterMap (fun e => match e with
    | OutEvent.echo l => some l
    | OutEvent.confirm _ => none)

/-- Number of confirmation events in a trace. -/
def confirmCount (evs : List OutEvent) : Nat :=
  (evs.filter (fun e => match e with
    | OutEvent.confirm _ => true
    | OutEvent.echo _ => false)).length

/-- Further observable steps of run_server besides the loop output: the
message printed by the KeyboardInterrupt handler, the `process.terminate()`
call, and a `process.wait()` call. -/
inductive ServerEvent where
  | out (e : OutEvent)
  | stoppingMsg
  | terminateReq
  | waitForExit
deriving DecidableEq

/-- The Launcher's run state as the spec's state machine sees it. -/
inductive ServerPhase where
  | running
  | stopped
deriving DecidableEq

/-- run_server's try/except around the loop.  `interruptAfter = none` is a
run with no interrupt: the loop consumes every line, then `process.wait()`.
`interruptAfter = some k` is a KeyboardInterrupt arriving after `k` lines
were processed: control jumps to the handler, which prints the stopping
message, calls `process.terminate()` and then `process.wait()`.  Either way
the function returns normally (the handler swallows the interrupt).
Result: events in order, final phase, final `ws_endpoint`. -/
def run_server_model (lines : List (List Char)) (interruptAfter : Option Nat) :
    List ServerEvent × ServerPhase × Option (List Char) :=
  match interruptAfter with
  | none =>
    let r := runLines none lines
    (r.2.map ServerEvent.out ++ [ServerEvent.waitForExit], ServerPhase.stopped, r.1)
  | some k =>
    let r := runLines none (lines.take k)
    (r.2.map ServerEvent.out ++
       [ServerEvent.stoppingMsg, ServerEvent.terminateReq, ServerEvent.waitForExit],
     ServerPhase.stopped, r.1)

/-- The observable browser-driving steps performed by run_client, in the
order the library calls appear in the source. -/
inductive ClientAction where
  | connect (endpoint : List Char)
  | newPage
  | goto (url : List Char)
  | readTitle
  | screenshot (path : List Char)
  | closeBrowser
deriving DecidableEq

/-- Outcome of each external library call in one Connector run: `true` means
the call returns, `false` means it raises.  run_client itself has no
branching; failure of a step only cuts the run short. -/
structure ClientWorld where
  connectOk : Bool
  newPageOk : Bool
  gotoOk : Bool
  titleOk : Bool
  screenshotOk : Bool
  closeOk : Bool
deriving DecidableEq

/-- The fixed navigation target of run_client. -/
def targetUrl : List Char := "https://x.com".data

/-- The fixed screenshot path of run_client. -/
def screenshotPath : List Char := "remote_screenshot.png".data

/-- run_client: the strictly sequential body.  Each step is attempted in
source order; an exception from a step propagates uncaught, so the run stops
there (`false`).  When every step returns, the run completes (`true`). -/
def run_client (w : ClientWorld) (ws_endpoint : List Char) :
    List ClientAction × Bool :=
  let t1 := [ClientAction.connect ws_endpoint]
  if !w.connectOk then (t1, false) else
  let t2 := t1 ++ [ClientAction.newPage]
  if !w.newPageOk then (t2, false) else
  let t3 := t2 ++ [ClientAction.goto targetUrl]
  if !w.gotoOk then (t3, false) else
  let t4 := t3 ++ [ClientAction.readTitle]
  if !w.titleOk then (t4, false) else
  let t5 := t4 ++ [ClientAction.screenshot screenshotPath]
  if !w.screenshotOk then (t5, false) else
  let t6 := t5 ++ [ClientAction.closeBrowser]
  if !w.closeOk then (t6, false) else (t6, true)

/-- The default endpoint literal in client.py's `__main__` block. -/
def default_ws_endpoint : List Char := "ws://localhost:9222/playwright".data

/-- client.py argument handling: `ws_endpoint = sys.argv[1] if len(sys.argv)
> 1 else the default`.  `argv` includes the script name at index 0. -/
def chooseEndpoint (argv : List (List Char)) : List Char :=
  match argv with
  | _ :: arg :: _ => arg
  | _ => default_ws_endpoint

/-- client.py's `__main__` block: pick the endpoint, then run the client. -/
def client_main (w : ClientWorld) (argv : List (List Char)) :
    List ClientAction × Bool :=
  run_client w (chooseEndpoint argv)

/-! Helper lemmas about the Launcher's line processing. -/

lemma isPrefixOf_append_self (l t : List Char) : l.isPrefixOf (l ++ t) = true := by
  induction l with
  | nil => simp [List.isPrefixOf]
  | cons c cs ih => simp [List.isPrefixOf, ih]

lemma wsSearch_some (l t : List Char) (h : wsSearch l = some t) :
    ∃ tok, tok ≠ [] ∧ (∀ c ∈ tok, pyIsSpace c = false) ∧ t = wsPat ++ tok := by
  induction l with
  | nil => simp [wsSearch] at h
  | cons c rest ih =>
    rw [wsSearch] at h
    split at h
    · split at h
      · exact ih h
      · next hne =>
        refine ⟨((c :: rest).drop 5).takeWhile (fun d => !pyIsSpace d), ?_, ?_, ?_⟩
        · intro hnil
          rw [hnil] at hne
          simp at hne
        · intro d hd
          have := List.mem_takeWhile_imp hd
          simpa using this
        · exact (Option.some.inj h).symm
    · exact ih h

lemma wsSearch_hasSubstr (l t : List Char) (h : wsSearch l = some t) :
    hasSubstr wsPat l = true := by
  induction l with
  | nil => simp [wsSearch] at h
  | cons c rest ih =>
    rw [wsSearch] at h
    rw [hasSubstr]
    split at h
    · next hp => simp [hp]
    · next hp => simp [ih h]

lemma processLine_none_of_no_match (line : List Char) (h : wsSearch line = none) :
    processLine none line = (none, [OutEvent.echo line]) := by
  unfold processLine
  rw [h]
  split <;> rfl

lemma processLine_none_of_match (line t : List Char) (h : wsSearch line = some t) :
    processLine none line = (some t, [OutEvent.echo line, OutEvent.confirm t]) := by
  unfold processLine
  rw [h, wsSearch_hasSubstr line t h]
  simp [pyFalsy]

lemma processLine_captured (t : List Char) (ht : t ≠ []) (line : List Char) :
    processLine (some t) line = (some t, [OutEvent.echo line]) := by
  cases t with
  | nil => exact absurd rfl ht
  | cons a as => rfl

lemma runLines_captured (t : List Char) (ht : t ≠ []) (ls : List (List Char)) :
    runLines (some t) ls = (some t, ls.map OutEvent.echo) := by
  induction ls with
  | nil => rfl
  | cons l rest ih =>
    simp only [runLines, processLine_captured t ht l, ih, List.map_cons]
    rfl

lemma runLines_none_eq (lines : List (List Char)) :
    runLines none lines = (firstWsToken lines, specCaptureTrace lines) := by
  induction lines with
  | nil => rfl
  | cons l rest ih =>
    cases h : wsSearch l with
    | none =>
      simp only [runLines, processLine_none_of_no_match l h, ih]
      simp [firstWsToken, specCaptureTrace, h]
    | some t =>
      have ht : t ≠ [] := by
        obtain ⟨tok, hne, _, hts⟩ := wsSearch_some l t h
        simp [hts, wsPat]
      simp only [runLines, processLine_none_of_match l t h, runLines_captured t ht rest]
      simp [firstWsToken, specCaptureTrace, h]

lemma confirmCount_map_echo (ls : List (List Char)) :
    confirmCount (ls.map OutEvent.echo) = 0 := by
  induction ls with
  | nil => rfl
  | cons l rest _ih => simp [confirmCount, List.filter_cons]

lemma confirmCount_specTrace (lines : List (List Char)) :
    confirmCount (specCaptureTrace lines) =
      if (firstWsToken lines).isSome then 1 else 0 := by
  induction lines with
  | nil => rfl
  | cons l rest ih =>
    cases h : wsSearch l with
    | none =>
      simpa [specCaptureTrace, h, confirmCount, List.filter_cons, firstWsToken]
        using ih
    | some t =>
      simp [specCaptureTrace, h, confirmCount, List.filter_cons, firstWsToken]

lemma echoedLines_append (a b : List OutEvent) :
    echoedLines (a ++ b) = echoedLines a ++ echoedLines b := by
  simp [echoedLines]

lemma echoedLines_processLine (st : Option (List Char)) (line : List Char) :
    echoedLines (processLine st line).2 = [line] := by
  unfold processLine
  split
  · split <;> simp [echoedLines]
  · simp [echoedLines]

lemma runLines_fst_append (st : Option (List Char)) (a b : List (List Char)) :
    (runLines st (a ++ b)).1 = (runLines (runLines st a).1 b).1 := by
  induction a generalizing st with
  | nil => rfl
  | cons l rest ih =>
    simp only [List.cons_append, runLines]
    exact ih _

lemma runLines_none_of_all_none (lines : List (List Char))
    (h : ∀ l ∈ lines, wsSearch l = none) :
    runLines none lines = (none, lines.map OutEvent.echo) := by
  induction lines with
  | nil => rfl
  | cons l rest ih =>
    have hrest := ih (fun x hx => h x (List.mem_cons_of_mem l hx))
    simp only [runLines, processLine_none_of_no_match l (h l (List.mem_cons_self l rest)),
      hrest, List.map_cons]
    rfl

lemma wsSearch_none_of_no_token (l : List Char)
    (h : ∀ i, i < l.length → wsPat.isPrefixOf (l.drop i) = true →
         (l.drop (i + 5)).takeWhile (fun d => !pyIsSpace d) = []) :
    wsSearch l = none := by
  induction l with
  | nil => rfl
  | cons c rest ih =>
    have hrest : ∀ i, i < rest.length → wsPat.isPrefixOf (rest.drop i) = true →
        (rest.drop (i + 5)).takeWhile (fun d => !pyIsSpace d) = [] := by
      intro i hi hp
      have hlt : i + 1 < (c :: rest).length := by
        simpa using Nat.succ_lt_succ hi
      have hdrop : (c :: rest).drop (i + 1) = rest.drop i := by
        simp [List.drop_succ_cons]
      have hdrop6 : (c :: rest).drop (i + 1 + 5) = rest.drop (i + 5) := by
        have : i + 1 + 5 = (i + 5) + 1 := by omega
        rw [this, List.drop_succ_cons]
      have := h (i + 1) hlt (by rw [hdrop]; exact hp)
      rwa [hdrop6] at this
    rw [wsSearch]
    split
    · next hp =>
      have h0 := h 0 (by simp) (by simpa using hp)
      simp only [Nat.zero_add] at h0
      have hcond : (((c :: rest).drop 5).takeWhile (fun d => !pyIsSpace d)).isEmpty = true := by
        rw [h0]
        rfl
      rw [if_pos hcond]
      exact ih hrest
    · exact ih hrest

/-! Claim theorems. -/

/-- C1: For every sequence of output lines fed to the Launcher's line
processor, the captured endpoint, if any, equals the first contiguous
`ws://`-prefixed non-whitespace token appearing across all lines in order;
the output trace echoes every line and places the single confirmation
exactly at the moment of capture, so the confirmation is emitted exactly
once when a capture happens, and never otherwise. -/
theorem captured_endpoint_is_first_ws_token (lines : List (List Char)) :
    (runLines none lines).1 = firstWsToken lines ∧
    (runLines none lines).2 = specCaptureTrace lines ∧
    confirmCount (runLines none lines).2 =
      (if (firstWsToken lines).isSome then 1 else 0) := by
  have h := runLines_none_eq lines
  exact ⟨by rw [h], by rw [h], by rw [h]; exact confirmCount_specTrace lines⟩

/-- C2: If no line carries a `ws://` token (the regex search fails on every
line), the captured endpoint is still unset after any processed portion of
the run, and the run is just the verbatim echo of every line — no error,
no other output. -/
theorem no_ws_token_endpoint_stays_unset (lines pre suf : List (List Char))
    (hsplit : lines = pre ++ suf) (h : ∀ l ∈ lines, wsSearch l = none) :
    (runLines none pre).1 = none ∧
    (runLines none lines).2 = lines.map OutEvent.echo := by
  have hpre : ∀ l ∈ pre, wsSearch l = none := by
    intro l hl
    exact h l (by rw [hsplit]; exact List.mem_append_left suf hl)
  exact ⟨by rw [runLines_none_of_all_none pre hpre],
    by rw [runLines_none_of_all_none lines h]⟩

/-- Witness for C2 at a concrete two-line stream with no `ws://` token: the
second line even holds `ws://` followed by the file separator `\x1c`, which
is whitespace to Python's `\s`, so the regex finds no token on it. -/
theorem no_ws_token_endpoint_stays_unset_witness :
    (( "Starting Playwright Server".data :: "ws://\x1c".data :: []) =
       ( "Starting Playwright Server".data :: []) ++ ( "ws://\x1c".data :: []) ∧
     (∀ l ∈ ( "Starting Playwright Server".data :: "ws://\x1c".data :: []),
       wsSearch l = none)) ∧
    ((runLines none ( "Starting Playwright Server".data :: [])).1 = none ∧
     (runLines none ( "Starting Playwright Server".data :: "ws://\x1c".data :: [])).2 =
       ( "Starting Playwright Server".data :: "ws://\x1c".data :: []).map OutEvent.echo) :=
  ⟨⟨rfl, by decide⟩, no_ws_token_endpoint_stays_unset _ _ _ rfl (by decide)⟩

/-- C3: Every line delivered to the processor is echoed verbatim exactly
once, in arrival order, whatever the capture state is and whether or not a
line triggers a capture: the echo events of the produced trace are exactly
the input lines. -/
theorem every_line_echoed_once_in_order (st : Option (List Char)) (lines : List (List Char)) :
    echoedLines (runLines st lines).2 = lines := by
  induction lines generalizing st with
  | nil => rfl
  | cons l rest ih =>
    simp only [runLines, echoedLines_append, echoedLines_processLine, ih]
    rfl

/-- C4: The capture state transition is one-way: if the endpoint is captured
after some processed portion of the stream, processing any further lines
leaves the captured value unchanged. -/
theorem endpoint_capture_one_way (pre suf : List (List Char)) (t : List Char)
    (h : (runLines none pre).1 = some t) :
    (runLines none (pre ++ suf)).1 = some t := by
  have hfirst : firstWsToken pre = some t := by
    rw [← h, runLines_none_eq pre]
  have ht : t ≠ [] := by
    unfold firstWsToken at hfirst
    obtain ⟨l, _, hw⟩ := List.exists_of_findSome?_eq_some hfirst
    obtain ⟨tok, _, _, hts⟩ := wsSearch_some l t hw
    simp [hts, wsPat]
  rw [runLines_fst_append, h, runLines_captured t ht suf]

/-- Witness for C4: after capturing from the first line, a later line with
another `ws://` token does not change the captured endpoint. -/
theorem endpoint_capture_one_way_witness :
    (runLines none ( "ws://first/abc".data :: [])).1 = some ( "ws://first/abc".data) ∧
    (runLines none (( "ws://first/abc".data :: []) ++ ( "see ws://second/xyz".data :: []))).1 =
      some ( "ws://first/abc".data) :=
  ⟨by decide, endpoint_capture_one_way _ _ _ (by decide)⟩

/-- C5: With no command-line argument (argv holds only the script name) the
Connector uses exactly the literal `ws://localhost:9222/playwright`; with
one argument it uses that argument unmodified. -/
theorem connector_endpoint_choice (prog a : List Char) :
    chooseEndpoint (prog :: []) = "ws://localhost:9222/playwright".data ∧
    chooseEndpoint (prog :: a :: []) = a :=
  ⟨rfl, rfl⟩

/-- C6: When no step fails, run_client performs exactly, and in this order:
connect to the given endpoint, create a page, navigate to the fixed target,
read the title, write the screenshot to `remote_screenshot.png`, close the
connection — and the run completes. -/
theorem client_linear_sequence (w : ClientWorld) (e : List Char)
    (h : w.connectOk = true ∧ w.newPageOk = true ∧ w.gotoOk = true ∧
         w.titleOk = true ∧ w.screenshotOk = true ∧ w.closeOk = true) :
    run_client w e =
      ( ClientAction.connect e :: ClientAction.newPage :: ClientAction.goto targetUrl ::
        ClientAction.readTitle :: ClientAction.screenshot screenshotPath ::
        ClientAction.closeBrowser :: [], true) := by
  obtain ⟨h1, h2, h3, h4, h5, h6⟩ := h
  simp [run_client, h1, h2, h3, h4, h5, h6]

/-- Witness for C6: the all-steps-succeed world with the default endpoint. -/
theorem client_linear_sequence_witness :
    ((ClientWorld.mk true true true true true true).connectOk = true ∧
     (ClientWorld.mk true true true true true true).newPageOk = true ∧
     (ClientWorld.mk true true true true true true).gotoOk = true ∧
     (ClientWorld.mk true true true true true true).titleOk = true ∧
     (ClientWorld.mk true true true true true true).screenshotOk = true ∧
     (ClientWorld.mk true true true true true true).closeOk = true) ∧
    run_client (ClientWorld.mk true true true true true true) default_ws_endpoint =
      ( ClientAction.connect default_ws_endpoint :: ClientAction.newPage ::
        ClientAction.goto targetUrl :: ClientAction.readTitle ::
        ClientAction.screenshot screenshotPath :: ClientAction.closeBrowser :: [], true) :=
  ⟨⟨rfl, rfl, rfl, rfl, rfl, rfl⟩,
   client_linear_sequence _ _ ⟨rfl, rfl, rfl, rfl, rfl, rfl⟩⟩

/-- C7: A KeyboardInterrupt arriving after any number of processed lines is
handled: the Launcher prints the stopping message, issues the termination
request, waits for subprocess exit, and the run ends in the stopped phase —
the handler absorbs the interrupt, so the model returns normally. -/
theorem interrupt_reaches_stopped (lines : List (List Char)) (k : Nat) :
    (run_server_model lines (some k)).2.1 = ServerPhase.stopped ∧
    (run_server_model lines (some k)).1 =
      (runLines none (lines.take k)).2.map ServerEvent.out ++
        ( ServerEvent.stoppingMsg :: ServerEvent.terminateReq ::
          ServerEvent.waitForExit :: []) :=
  ⟨rfl, rfl⟩

/-- C8: Whenever the Launcher's captured endpoint is set, it starts with
`ws://`, has at least one further character after that five-character head,
and contains no whitespace character. -/
theorem captured_endpoint_wellformed (lines : List (List Char)) (t : List Char)
    (h : (runLines none lines).1 = some t) :
    wsPat.isPrefixOf t = true ∧ 5 < t.length ∧ (∀ c ∈ t, pyIsSpace c = false) := by
  have hfirst : firstWsToken lines = some t := by
    rw [← h, runLines_none_eq lines]
  unfold firstWsToken at hfirst
  obtain ⟨l, _, hw⟩ := List.exists_of_findSome?_eq_some hfirst
  obtain ⟨tok, hne, hns, hts⟩ := wsSearch_some l t hw
  subst hts
  refine ⟨isPrefixOf_append_self _ _, ?_, ?_⟩
  · cases tok with
    | nil => exact absurd rfl hne
    | cons d ds =>
      have h5 : wsPat.length = 5 := rfl
      rw [List.length_append, h5]
      simp
  · intro c hc
    rcases List.mem_append.1 hc with h1 | h2
    · rw [show wsPat = 'w' :: 's' :: ':' :: '/' :: '/' :: [] from rfl] at h1
      simp only [List.mem_cons, List.not_mem_nil, or_false] at h1
      rcases h1 with rfl | rfl | rfl | rfl | rfl <;> decide
    · exact hns c h2

/-- Witness for C8 at a concrete captured endpoint. -/
theorem captured_endpoint_wellformed_witness :
    (runLines none ( "DevTools on ws://127.0.0.1:9222/play".data :: [])).1 =
      some ( "ws://127.0.0.1:9222/play".data) ∧
    (wsPat.isPrefixOf ( "ws://127.0.0.1:9222/play".data) = true ∧
     5 < ( "ws://127.0.0.1:9222/play".data).length ∧
     (∀ c ∈ ( "ws://127.0.0.1:9222/play".data), pyIsSpace c = false)) :=
  ⟨by decide,
   captured_endpoint_wellformed ( "DevTools on ws://127.0.0.1:9222/play".data :: [])
     ( "ws://127.0.0.1:9222/play".data) (by decide)⟩

/-- C9: With two or more arguments after the script name (argv is the
script name, a first argument, a second one, and any further ones), only
the first argument is used as the endpoint; the rest are silently ignored
and the whole run behaves identically to an invocation with just that
first argument. -/
theorem extra_arguments_ignored (prog a b : List Char) (rest : List (List Char))
    (w : ClientWorld) :
    chooseEndpoint (prog :: a :: b :: rest) = a ∧
    client_main w (prog :: a :: b :: rest) = client_main w (prog :: a :: []) :=
  ⟨rfl, rfl⟩

/-- C10: A line whose every `ws://` occurrence is followed by whitespace or
by the end of the line triggers no capture: the regex search fails, the
processor only echoes the line and leaves the state unset, and capture on
later lines is unaffected. -/
theorem ws_followed_by_space_no_capture (l : List Char) (rest : List (List Char))
    (h : ∀ i, i < l.length → wsPat.isPrefixOf (l.drop i) = true →
         (l.drop (i + 5)).takeWhile (fun d => !pyIsSpace d) = []) :
    wsSearch l = none ∧
    processLine none l = (none, OutEvent.echo l :: []) ∧
    (runLines none (l :: rest)).1 = (runLines none rest).1 := by
  have hw := wsSearch_none_of_no_token l h
  refine ⟨hw, processLine_none_of_no_match l hw, ?_⟩
  simp only [runLines, processLine_none_of_no_match l hw]

/-- Witness for C10 on a line exercising all three boundary kinds: `ws://`
followed by the file separator `\x1c` (Python whitespace), by a plain
space, and by the end of the line — none captures, and a later line still
does. -/
theorem ws_followed_by_space_no_capture_witness :
    (∀ i, i < ( "ws://\x1ctail then ws:// mid ws://".data).length →
       wsPat.isPrefixOf (( "ws://\x1ctail then ws:// mid ws://".data).drop i) = true →
       (( "ws://\x1ctail then ws:// mid ws://".data).drop (i + 5)).takeWhile
         (fun d => !pyIsSpace d) = []) ∧
    (wsSearch ( "ws://\x1ctail then ws:// mid ws://".data) = none ∧
     processLine none ( "ws://\x1ctail then ws:// mid ws://".data) =
       (none, OutEvent.echo ( "ws://\x1ctail then ws:// mid ws://".data) :: []) ∧
     (runLines none ( "ws://\x1ctail then ws:// mid ws://".data :: "ok ws://h:1/p".data :: [])).1 =
       (runLines none ( "ok ws://h:1/p".data :: [])).1) :=
  ⟨by decide, ws_followed_by_space_no_capture _ _ (by decide)⟩

end PlaywrightRemote
